import Mathlib

/-!
Verification of the rule matcher (`libcutils/fs_config.c`) and the cold-boot
coordinator (`init/ueventd.cpp`) of this repository, as a shallow embedding.

Strings are modelled as lists of bytes (`Fin 256`), with no interior NUL;
`strncmp(a, b, n) == 0` on such strings is equality of the first `n` bytes,
i.e. `a.take n = b.take n` (a shorter string differs from a longer one at the
terminating NUL, which `List.take` reproduces because taking past the end
stops at the end).
-/

/-- A byte: the element type of paths, rule prefixes and packed rule files. -/
abbrev Byte := Fin 256

/-- ASCII string literal as a byte list (all source literals are ASCII). -/
def bytes (s : String) : List Byte := s.data.map fun c => (c.toNat : Byte)

/-- Model of `fs_config_cmp` from `libcutils/fs_config.c`:

```c
static bool fs_config_cmp(bool dir, const char* prefix, size_t len,
                          const char* path, size_t plen) {
    if (dir) {
        if (plen < len) return false;
    } else {
        if (prefix[len - 1] == '*') return !strncmp(prefix, path, len - 1);
        if (plen != len) return false;
    }
    return !strncmp(prefix, path, len);
}
```

`len` is always the length of `pre` at every call site (`strlen`/`strnlen`).
The wildcard test `prefix[len - 1] == '*'` reads out of bounds when
`len = 0`; the model reads the last byte with `getLast?` (so an empty
prefix takes the non-wildcard branch).  42 is ASCII `*`. -/
def fs_config_cmp (dir : Bool) (pre path : List Byte) : Bool :=
  let len := pre.length
  if dir then
    if path.length < len then false
    else pre.take len == path.take len
  else if pre.getLast? == some (42 : Byte) then
    pre.take (len - 1) == path.take (len - 1)
  else if path.length ≠ len then false
  else pre.take len == path.take len

/-- An entry of the built-in rule tables (`struct fs_path_config`).
The terminal catch-all entry (NULL prefix) is kept out of the lists and
passed to `scanTable` separately. -/
structure FsPathConfig where
  mode : Nat
  uid : Nat
  gid : Nat
  capabilities : Nat
  pfx : List Byte
deriving DecidableEq, Repr

/- Android IDs from `private/android_filesystem_config.h` (the header is not
part of this tree; the numeric values are the standard fixed AIDs.  Only
`AID_ROOT = 0` matters to any claim: the spec's terminal entries are
`(0755, 0, 0, 0)` and `(0644, 0, 0, 0)`). -/
def AID_ROOT : Nat := 0
def AID_SYSTEM : Nat := 1000
def AID_RADIO : Nat := 1001
def AID_BLUETOOTH : Nat := 1002
def AID_GRAPHICS : Nat := 1003
def AID_WIFI : Nat := 1010
def AID_DHCP : Nat := 1014
def AID_MEDIA_RW : Nat := 1023
def AID_SDCARD_R : Nat := 1028
def AID_LOGD : Nat := 1036
def AID_SHARED_RELRO : Nat := 1037
def AID_SHELL : Nat := 2000
def AID_CACHE : Nat := 2001
def AID_MISC : Nat := 9998
def AID_APP : Nat := 10000

/- Linux capability numbers (`linux/capability.h`); `CAP_MASK_LONG(x)` is
`1ULL << x`. -/
def CAP_SETGID : Nat := 6
def CAP_SETUID : Nat := 7
def CAP_SETPCAP : Nat := 8
def CAP_NET_ADMIN : Nat := 12
def CAP_NET_RAW : Nat := 13
def CAP_SYS_NICE : Nat := 23
def CAP_AUDIT_CONTROL : Nat := 30
def CAP_SYSLOG : Nat := 34
def CAP_BLOCK_SUSPEND : Nat := 36

def CAP_MASK_LONG (x : Nat) : Nat := 2 ^ x

/-- Table `android_dirs` from `fs_config.c`, without its terminal NULL-prefix entry
(see `android_dirs_terminal`). -/
def android_dirs : List FsPathConfig := [
  ⟨0o770, AID_SYSTEM,       AID_CACHE,        0, bytes "cache"⟩,
  ⟨0o500, AID_ROOT,         AID_ROOT,         0, bytes "config"⟩,
  ⟨0o771, AID_SYSTEM,       AID_SYSTEM,       0, bytes "data/app"⟩,
  ⟨0o771, AID_SYSTEM,       AID_SYSTEM,       0, bytes "data/app-private"⟩,
  ⟨0o771, AID_SYSTEM,       AID_SYSTEM,       0, bytes "data/app-ephemeral"⟩,
  ⟨0o771, AID_ROOT,         AID_ROOT,         0, bytes "data/dalvik-cache"⟩,
  ⟨0o771, AID_SYSTEM,       AID_SYSTEM,       0, bytes "data/data"⟩,
  ⟨0o771, AID_SHELL,        AID_SHELL,        0, bytes "data/local/tmp"⟩,
  ⟨0o771, AID_SHELL,        AID_SHELL,        0, bytes "data/local"⟩,
  ⟨0o770, AID_DHCP,         AID_DHCP,         0, bytes "data/misc/dhcp"⟩,
  ⟨0o771, AID_SHARED_RELRO, AID_SHARED_RELRO, 0, bytes "data/misc/shared_relro"⟩,
  ⟨0o1771, AID_SYSTEM,      AID_MISC,         0, bytes "data/misc"⟩,
  ⟨0o775, AID_MEDIA_RW,     AID_MEDIA_RW,     0, bytes "data/media/Music"⟩,
  ⟨0o775, AID_MEDIA_RW,     AID_MEDIA_RW,     0, bytes "data/media"⟩,
  ⟨0o750, AID_ROOT,         AID_SHELL,        0, bytes "data/nativetest"⟩,
  ⟨0o750, AID_ROOT,         AID_SHELL,        0, bytes "data/nativetest64"⟩,
  ⟨0o775, AID_ROOT,         AID_ROOT,         0, bytes "data/preloads"⟩,
  ⟨0o771, AID_SYSTEM,       AID_SYSTEM,       0, bytes "data"⟩,
  ⟨0o755, AID_ROOT,         AID_SYSTEM,       0, bytes "mnt"⟩,
  ⟨0o755, AID_ROOT,         AID_ROOT,         0, bytes "root"⟩,
  ⟨0o750, AID_ROOT,         AID_SHELL,        0, bytes "sbin"⟩,
  ⟨0o777, AID_ROOT,         AID_ROOT,         0, bytes "sdcard"⟩,
  ⟨0o751, AID_ROOT,         AID_SDCARD_R,     0, bytes "storage"⟩,
  ⟨0o755, AID_ROOT,         AID_SHELL,        0, bytes "system/bin"⟩,
  ⟨0o755, AID_ROOT,         AID_ROOT,         0, bytes "system/etc/ppp"⟩,
  ⟨0o755, AID_ROOT,         AID_SHELL,        0, bytes "system/vendor"⟩,
  ⟨0o755, AID_ROOT,         AID_SHELL,        0, bytes "system/xbin"⟩,
  ⟨0o755, AID_ROOT,         AID_SHELL,        0, bytes "vendor"⟩]

/-- The terminal entry `{ 00755, AID_ROOT, AID_ROOT, 0, 0 }` of `android_dirs`
(NULL prefix, so the scan loop stops on it and its fields are used). -/
def android_dirs_terminal : FsPathConfig := ⟨0o755, AID_ROOT, AID_ROOT, 0, []⟩

/-- Table `android_files` from `fs_config.c`, without its terminal NULL-prefix entry
(see `android_files_terminal`).  `odm_conf_dir + 1` etc. are the conf-file
path literals with the leading slash skipped. -/
def android_files : List FsPathConfig := [
  ⟨0o644, AID_SYSTEM,    AID_SYSTEM,    0, bytes "data/app/*"⟩,
  ⟨0o644, AID_SYSTEM,    AID_SYSTEM,    0, bytes "data/app-ephemeral/*"⟩,
  ⟨0o644, AID_SYSTEM,    AID_SYSTEM,    0, bytes "data/app-private/*"⟩,
  ⟨0o644, AID_APP,       AID_APP,       0, bytes "data/data/*"⟩,
  ⟨0o644, AID_MEDIA_RW,  AID_MEDIA_RW,  0, bytes "data/media/*"⟩,
  ⟨0o640, AID_ROOT,      AID_SHELL,     0, bytes "data/nativetest/tests.txt"⟩,
  ⟨0o640, AID_ROOT,      AID_SHELL,     0, bytes "data/nativetest64/tests.txt"⟩,
  ⟨0o750, AID_ROOT,      AID_SHELL,     0, bytes "data/nativetest/*"⟩,
  ⟨0o750, AID_ROOT,      AID_SHELL,     0, bytes "data/nativetest64/*"⟩,
  ⟨0o600, AID_ROOT,      AID_ROOT,      0, bytes "default.prop"⟩,
  ⟨0o600, AID_ROOT,      AID_ROOT,      0, bytes "odm/build.prop"⟩,
  ⟨0o600, AID_ROOT,      AID_ROOT,      0, bytes "odm/default.prop"⟩,
  ⟨0o444, AID_ROOT,      AID_ROOT,      0, bytes "odm/etc/fs_config_dirs"⟩,
  ⟨0o444, AID_ROOT,      AID_ROOT,      0, bytes "odm/etc/fs_config_files"⟩,
  ⟨0o444, AID_ROOT,      AID_ROOT,      0, bytes "oem/etc/fs_config_dirs"⟩,
  ⟨0o444, AID_ROOT,      AID_ROOT,      0, bytes "oem/etc/fs_config_files"⟩,
  ⟨0o750, AID_ROOT,      AID_SHELL,     0, bytes "sbin/fs_mgr"⟩,
  ⟨0o755, AID_ROOT,      AID_SHELL,     0, bytes "system/bin/crash_dump32"⟩,
  ⟨0o755, AID_ROOT,      AID_SHELL,     0, bytes "system/bin/crash_dump64"⟩,
  ⟨0o755, AID_ROOT,      AID_SHELL,     0, bytes "system/bin/debuggerd"⟩,
  ⟨0o750, AID_ROOT,      AID_ROOT,      0, bytes "system/bin/install-recovery.sh"⟩,
  ⟨0o700, AID_ROOT,      AID_ROOT,      0, bytes "system/bin/secilc"⟩,
  ⟨0o750, AID_ROOT,      AID_ROOT,      0, bytes "system/bin/uncrypt"⟩,
  ⟨0o600, AID_ROOT,      AID_ROOT,      0, bytes "system/build.prop"⟩,
  ⟨0o444, AID_ROOT,      AID_ROOT,      0, bytes "system/etc/fs_config_dirs"⟩,
  ⟨0o444, AID_ROOT,      AID_ROOT,      0, bytes "system/etc/fs_config_files"⟩,
  ⟨0o440, AID_ROOT,      AID_SHELL,     0, bytes "system/etc/init.goldfish.rc"⟩,
  ⟨0o550, AID_ROOT,      AID_SHELL,     0, bytes "system/etc/init.goldfish.sh"⟩,
  ⟨0o550, AID_ROOT,      AID_SHELL,     0, bytes "system/etc/init.ril"⟩,
  ⟨0o555, AID_ROOT,      AID_ROOT,      0, bytes "system/etc/ppp/*"⟩,
  ⟨0o555, AID_ROOT,      AID_ROOT,      0, bytes "system/etc/rc.*"⟩,
  ⟨0o440, AID_ROOT,      AID_ROOT,      0, bytes "system/etc/recovery.img"⟩,
  ⟨0o440, AID_RADIO,     AID_ROOT,      0, bytes "system/etc/xtables.lock"⟩,
  ⟨0o600, AID_ROOT,      AID_ROOT,      0, bytes "vendor/build.prop"⟩,
  ⟨0o600, AID_ROOT,      AID_ROOT,      0, bytes "vendor/default.prop"⟩,
  ⟨0o444, AID_ROOT,      AID_ROOT,      0, bytes "vendor/etc/fs_config_dirs"⟩,
  ⟨0o444, AID_ROOT,      AID_ROOT,      0, bytes "vendor/etc/fs_config_files"⟩,
  ⟨0o6755, AID_ROOT,     AID_ROOT,      0, bytes "system/xbin/procmem"⟩,
  ⟨0o4750, AID_ROOT,     AID_SHELL,     0, bytes "system/xbin/su"⟩,
  ⟨0o700, AID_SYSTEM,    AID_SHELL,     CAP_MASK_LONG CAP_BLOCK_SUSPEND,
                                           bytes "system/bin/inputflinger"⟩,
  ⟨0o550, AID_LOGD,      AID_LOGD,      CAP_MASK_LONG CAP_SYSLOG +
                                        CAP_MASK_LONG CAP_AUDIT_CONTROL +
                                        CAP_MASK_LONG CAP_SETGID,
                                           bytes "system/bin/logd"⟩,
  ⟨0o750, AID_ROOT,      AID_SHELL,     CAP_MASK_LONG CAP_SETUID +
                                        CAP_MASK_LONG CAP_SETGID,
                                           bytes "system/bin/run-as"⟩,
  ⟨0o755, AID_SYSTEM,    AID_GRAPHICS,  CAP_MASK_LONG CAP_SYS_NICE,
                                           bytes "system/bin/surfaceflinger"⟩,
  ⟨0o755, AID_WIFI,      AID_WIFI,      CAP_MASK_LONG CAP_NET_ADMIN +
                                        CAP_MASK_LONG CAP_NET_RAW,
                                           bytes "system/bin/hostapd"⟩,
  ⟨0o700, AID_BLUETOOTH, AID_BLUETOOTH, CAP_MASK_LONG CAP_NET_ADMIN,
                                           bytes "vendor/bin/hw/android.hardware.bluetooth@1.0-service"⟩,
  ⟨0o755, AID_WIFI,      AID_WIFI,      CAP_MASK_LONG CAP_NET_ADMIN +
                                        CAP_MASK_LONG CAP_NET_RAW,
                                           bytes "vendor/bin/hw/android.hardware.wifi@1.0-service"⟩,
  ⟨0o750, AID_ROOT,      AID_ROOT,      CAP_MASK_LONG CAP_SETUID +
                                        CAP_MASK_LONG CAP_SETGID +
                                        CAP_MASK_LONG CAP_SETPCAP,
                                           bytes "system/bin/webview_zygote32"⟩,
  ⟨0o750, AID_ROOT,      AID_ROOT,      CAP_MASK_LONG CAP_SETUID +
                                        CAP_MASK_LONG CAP_SETGID +
                                        CAP_MASK_LONG CAP_SETPCAP,
                                           bytes "system/bin/webview_zygote64"⟩,
  ⟨0o755, AID_ROOT,      AID_ROOT,      0, bytes "bin/*"⟩,
  ⟨0o640, AID_ROOT,      AID_SHELL,     0, bytes "fstab.*"⟩,
  ⟨0o750, AID_ROOT,      AID_SHELL,     0, bytes "init*"⟩,
  ⟨0o750, AID_ROOT,      AID_SHELL,     0, bytes "sbin/*"⟩,
  ⟨0o755, AID_ROOT,      AID_SHELL,     0, bytes "system/bin/*"⟩,
  ⟨0o755, AID_ROOT,      AID_ROOT,      0, bytes "system/lib/valgrind/*"⟩,
  ⟨0o755, AID_ROOT,      AID_ROOT,      0, bytes "system/lib64/valgrind/*"⟩,
  ⟨0o755, AID_ROOT,      AID_SHELL,     0, bytes "system/vendor/bin/*"⟩,
  ⟨0o755, AID_ROOT,      AID_SHELL,     0, bytes "system/vendor/xbin/*"⟩,
  ⟨0o755, AID_ROOT,      AID_SHELL,     0, bytes "system/xbin/*"⟩,
  ⟨0o755, AID_ROOT,      AID_SHELL,     0, bytes "vendor/bin/*"⟩,
  ⟨0o755, AID_ROOT,      AID_SHELL,     0, bytes "vendor/xbin/*"⟩]

/-- The terminal entry `{ 00644, AID_ROOT, AID_ROOT, 0, 0 }` of `android_files`. -/
def android_files_terminal : FsPathConfig := ⟨0o644, AID_ROOT, AID_ROOT, 0, []⟩

/-- The built-in table loop of `fs_config`:
`for (pc = dir ? android_dirs : android_files; pc->prefix; pc++)` with body
`if (fs_config_cmp(dir, pc->prefix, strlen(pc->prefix), path, plen)) break;`.
When no listed entry matches, the loop halts on the terminal NULL-prefix
entry, whose fields are then used. -/
def scanTable (dir : Bool) (path : List Byte) :
    List FsPathConfig → FsPathConfig → FsPathConfig
  | [], term => term
  | pc :: rest, term =>
    if fs_config_cmp dir pc.pfx path then pc else scanTable dir path rest term

/-- Model of `get2LE` from `fs_config.c`: `src[0] | (src[1] << 8)`. -/
def get2LE (b0 b1 : Byte) : Nat := b0.val ||| (b1.val <<< 8)

/-- Model of `get8LE` from `fs_config.c`: two 32-bit little-endian words, combined as
`((uint64_t)high << 32) | (uint64_t)low`. -/
def get8LE (b0 b1 b2 b3 b4 b5 b6 b7 : Byte) : Nat :=
  let low := b0.val ||| (b1.val <<< 8) ||| (b2.val <<< 16) ||| (b3.val <<< 24)
  let high := b4.val ||| (b5.val <<< 8) ||| (b6.val <<< 16) ||| (b7.val <<< 24)
  (high <<< 32) ||| low

/-- Byte `i` of the little-endian encoding of `n` (what a little-endian store
of `n` puts at offset `i`). -/
def byteAt (n i : Nat) : Byte := ⟨n / 256 ^ i % 256, Nat.mod_lt _ (by norm_num)⟩

/-- The values `fs_config` reads out of one packed-file record. -/
structure RecVals where
  uid : Nat
  gid : Nat
  mode : Nat
  capabilities : Nat
  pfx : List Byte
deriving DecidableEq, Repr

/-- Model of `strnlen(buf, n)` where `buf` holds exactly the `n` bytes `bs`: the number
of bytes before the first NUL, capped at the buffer size. -/
def strnlenB (bs : List Byte) : Nat := (bs.takeWhile (fun b => b != 0)).length

/-- Modelled from the spec: record layout of `struct fs_path_config_from_file`
(declared in `private/fs_config.h`, which is not part of this tree).  Per §3
of the spec the header is `{ u16 len; u16 mode; u16 uid; u16 gid;
u64 capabilities; }` followed by `char prefix[len - header_size]`, all
little-endian, so the byte offsets are: len 0, mode 2, uid 4, gid 6,
capabilities 8, prefix 16, and the header size is 16. -/
def headerSize : Nat := 16

/-- The single-record read of `fs_config`'s packed-file loop — "the matcher's
record reader".  In source order:

* a short header read (`read != sizeof(header)`) ends the file (`none`);
* `remainder = host_len - sizeof(header) <= 0` → "len is corrupted" (`none`);
* a short prefix read → "prefix is truncated" (`none`);
* `len = strnlen(prefix, remainder) >= remainder` → missing NUL (`none`);
* otherwise the record's values — uid, gid, mode, capabilities decoded with
  `get2LE`/`get8LE` at the offsets given by `headerSize`, and the prefix of
  `len` bytes — together with the rest of the byte stream after the record.

The corruption cases (`firstRecordCorrupt` distinguishes them from a plain
end of file) make the caller abandon the whole file. -/
def readRecord (bs : List Byte) : Option (RecVals × List Byte) :=
  if bs.length < headerSize then none
  else
    let hostLen := get2LE (bs.getD 0 0) (bs.getD 1 0)
    if hostLen ≤ headerSize then none
    else
      let remainder := hostLen - headerSize
      let rest := bs.drop headerSize
      if rest.length < remainder then none
      else
        let prefixBuf := rest.take remainder
        let len := strnlenB prefixBuf
        if remainder ≤ len then none
        else
          some (⟨get2LE (bs.getD 4 0) (bs.getD 5 0),
                 get2LE (bs.getD 6 0) (bs.getD 7 0),
                 get2LE (bs.getD 2 0) (bs.getD 3 0),
                 get8LE (bs.getD 8 0) (bs.getD 9 0) (bs.getD 10 0) (bs.getD 11 0)
                        (bs.getD 12 0) (bs.getD 13 0) (bs.getD 14 0) (bs.getD 15 0),
                 prefixBuf.take len⟩, rest.drop remainder)

/-- The corruption tests of `fs_config`'s record loop, in source order:
`true` iff the first record of `bs` trips one of them (declared length at
most the header size; short prefix read; prefix not NUL-terminated within
its declared length).  A short *header* read is not corruption (it is the
normal end of the file), so it yields `false`. -/
def firstRecordCorrupt (bs : List Byte) : Bool :=
  if bs.length < headerSize then false
  else
    let hostLen := get2LE (bs.getD 0 0) (bs.getD 1 0)
    if hostLen ≤ headerSize then true
    else
      let remainder := hostLen - headerSize
      let rest := bs.drop headerSize
      if rest.length < remainder then true
      else decide (remainder ≤ strnlenB (rest.take remainder))

/-- The record loop of `fs_config` over the byte contents of one packed rule
file (`while (TEMP_FAILURE_RETRY(read(fd, &header, sizeof(header))) ==
sizeof(header)) ...`): read records with `readRecord`; the first record
matched by `fs_config_cmp` supplies the result; `none` means the file
contributed nothing — end of file or a corrupt record (either way the file
is abandoned and matching falls through to the next file). -/
def scanFile (dir : Bool) (path : List Byte) (bs : List Byte) : Option RecVals :=
  match h : readRecord bs with
  | none => none
  | some (v, rest) =>
    if fs_config_cmp dir v.pfx path then some v else scanFile dir path rest
termination_by bs.length
decreasing_by
  unfold readRecord at h
  dsimp only at h
  split_ifs at h
  injection h with h'
  cases h'
  simp only [List.length_drop, headerSize] at *
  omega

/-- The outer loop of `fs_config` over the packed rule files, in
`{system, vendor, oem, odm}` order; `files` holds the contents of the files
that opened successfully (an `open` failure is `continue`). -/
def scanFiles (dir : Bool) (path : List Byte) : List (List Byte) → Option RecVals
  | [] => none
  | f :: fs =>
    match scanFile dir path f with
    | some v => some v
    | none => scanFiles dir path fs

/-- The store `*mode = (*mode & (~07777)) | newbits` on a 32-bit `unsigned`:
clear the low 12 bits of the caller's mode, then or in the rule's bits. -/
def mergeMode (m newbits : Nat) : Nat := m % 2 ^ 32 / 4096 * 4096 ||| newbits

/-- The `(uid, gid, mode, capabilities)` quadruple `fs_config` assigns through
its output parameters. -/
structure FsConfigResult where
  uid : Nat
  gid : Nat
  mode : Nat
  capabilities : Nat
deriving DecidableEq, Repr

/-- The step `if (path[0] == '/') path++;` — strip one leading slash (47). -/
def stripLeadingSlash (path : List Byte) : List Byte :=
  if path.headD 0 == (47 : Byte) then path.tail else path

/-- Model of `fs_config` from `libcutils/fs_config.c`.  A single leading `/` is
stripped from `path`; the packed rule files are consulted first, the built-in
table (directories or files) second; `mode0` is the caller's `*mode`. -/
def fs_config (path : List Byte) (dir : Bool) (files : List (List Byte))
    (mode0 : Nat) : FsConfigResult :=
  let p := stripLeadingSlash path
  match scanFiles dir p files with
  | some v => ⟨v.uid, v.gid, mergeMode mode0 v.mode, v.capabilities⟩
  | none =>
    let pc := scanTable dir p (if dir then android_dirs else android_files)
        (if dir then android_dirs_terminal else android_files_terminal)
    ⟨pc.uid, pc.gid, mergeMode mode0 pc.mode, pc.capabilities⟩

/-- Macro `ALIGN(x, 8)` = `(x + 7) & ~7`, i.e. round up to a multiple of 8. -/
def align8 (x : Nat) : Nat := (x + 7) / 8 * 8

/-- Model of `fs_config_generate` from `fs_config.c`: encode one rule into a buffer of
size `length`.  `none` is the `-ENOSPC` rejection (buffer too small, or the
8-byte-aligned record size exceeds `UINT16_MAX`); otherwise the `len`
encoded bytes: the 16-byte header (offsets per `headerSize`), the prefix, a
NUL, and zero padding up to the alignment (the buffer is `memset` to 0
before the fields and prefix are stored). -/
def fs_config_generate (length : Nat) (pc : FsPathConfig) : Option (List Byte) :=
  let len := align8 (headerSize + pc.pfx.length + 1)
  if length < len ∨ 65535 < len then none
  else some (
    [byteAt len 0, byteAt len 1,
     byteAt pc.mode 0, byteAt pc.mode 1,
     byteAt pc.uid 0, byteAt pc.uid 1,
     byteAt pc.gid 0, byteAt pc.gid 1,
     byteAt pc.capabilities 0, byteAt pc.capabilities 1, byteAt pc.capabilities 2,
     byteAt pc.capabilities 3, byteAt pc.capabilities 4, byteAt pc.capabilities 5,
     byteAt pc.capabilities 6, byteAt pc.capabilities 7] ++
    pc.pfx ++ List.replicate (len - headerSize - pc.pfx.length) 0)

/-- Array `conf[which][dir]` from `fs_config.c`: the absolute packed rule file
paths, `which` in `{system, vendor, oem, odm}` order, second index selecting
the `_dirs` variant. -/
def confPath (which : Nat) (dir : Bool) : List Byte :=
  match which, dir with
  | 0, false => bytes "/system/etc/fs_config_files"
  | 0, true  => bytes "/system/etc/fs_config_dirs"
  | 1, false => bytes "/vendor/etc/fs_config_files"
  | 1, true  => bytes "/vendor/etc/fs_config_dirs"
  | 2, false => bytes "/oem/etc/fs_config_files"
  | 2, true  => bytes "/oem/etc/fs_config_dirs"
  | _, false => bytes "/odm/etc/fs_config_files"
  | _, true  => bytes "/odm/etc/fs_config_dirs"

/-- The slash-stripping while loop of `fs_config_open`:
`while (len > 0 && target_out_path[len - 1] == '/') --len;` keeps the longest
initial segment without trailing `/` (47) bytes. -/
def stripTrailingSlashes (top : List Byte) : List Byte :=
  (top.reverse.dropWhile (fun b => b == (47 : Byte))).reverse

/-- The name-prefix computation of `fs_config_open`: after the slash
stripping leaves `l` bytes, the code tests
`l >= strlen("/system") && !strcmp(target_out_path + l - 7, "/system")`.
`strcmp` runs to the NUL of the *original* string, so the test compares
`top.drop (l - 7)` — everything from `l - 7` to the original end — against
`"/system"`.  The `asprintf` format `%.*s` then takes the first `l` (or
`l - 7`) bytes. -/
def fs_config_open_pfx (top : List Byte) : List Byte :=
  let l := (stripTrailingSlashes top).length
  if 7 ≤ l ∧ top.drop (l - 7) = bytes "/system" then top.take (l - 7)
  else top.take l

/-- The prefix computation as C10's claim words it: "target_out_path with all
trailing '/' characters removed and then a trailing '/system' component
removed when present" (for comparison with `fs_config_open_pfx`). -/
def fs_config_open_pfx_claim (top : List Byte) : List Byte :=
  let s := stripTrailingSlashes top
  if (bytes "/system").isSuffixOf s then s.take (s.length - 7) else s

/-- Model of `fs_config_open` from `fs_config.c`, with the filesystem abstracted as an
oracle `openf` (`some fd` on success, `none` when `open` fails for any
reason).  With a non-empty `target_out_path` the prefixed name is tried
first; whenever that leaves `fd < 0`, the absolute `conf` path is opened. -/
def fs_config_open (openf : List Byte → Option Nat) (dir : Bool) (which : Nat)
    (top : List Byte) : Option Nat :=
  let primary := if top = [] then none
    else openf (fs_config_open_pfx top ++ confPath which dir)
  match primary with
  | some fd => some fd
  | none => openf (confPath which dir)

/-!
The cold-boot coordinator, `class ColdBoot` in `init/ueventd.cpp`.
-/

/-- Field `num_handler_subprocesses_`, initialized in `ColdBoot::ColdBoot` to
`std::thread::hardware_concurrency() ?: 4`: the GNU `?:` operator keeps a
nonzero concurrency and substitutes 4 only when `hardware_concurrency()`
returns 0 (meaning "unknown"). -/
def numHandlerSubprocesses (hardwareConcurrency : Nat) : Nat :=
  if hardwareConcurrency ≠ 0 then hardwareConcurrency else 4

/-- The process numbers of the children forked by `ColdBoot::ForkSubProcesses`
(`for (unsigned int i = 0; i < num_handler_subprocesses_; ++i) fork()`; child
`i` runs `UeventHandlerMain(i, num_handler_subprocesses_)`). -/
def forkSubProcesses (hardwareConcurrency : Nat) : List Nat :=
  List.range (numHandlerSubprocesses hardwareConcurrency)

/-- The loop of `ColdBoot::UeventHandlerMain`:
`for (unsigned int i = process_num; i < uevent_queue_.size(); i += total_processes)`
— the queue positions the worker starting at `start` handles, for a queue of
`size` events and a stride of `total` workers (`total` is nonzero because
`numHandlerSubprocesses` never returns 0). -/
def handlerLoop (total size : Nat) (htotal : 0 < total) (start : Nat) : List Nat :=
  if h : start < size then start :: handlerLoop total size htotal (start + total)
  else []
termination_by size - start
decreasing_by omega

/-- Observable events of `ColdBoot::Run`, in program order. -/
inductive CBEvent where
  | regenerateUevents
  | forkSubprocesses (n : Nat)
  | restoreconSys
  | reapWorker (status : Nat)
  | createColdbootDone (flags mode : Nat)
deriving DecidableEq, Repr

/-- Holds (`true`) exactly on the completion-marker creation event. -/
def isMarkerEvent : CBEvent → Bool
  | CBEvent.createColdbootDone _ _ => true
  | _ => false

/-- Holds (`true`) exactly on worker-reap events. -/
def isReapEvent : CBEvent → Bool
  | CBEvent.reapWorker _ => true
  | _ => false

/- `fcntl.h` flag values (Linux). -/
def O_WRONLY : Nat := 0o1
def O_CREAT : Nat := 0o100
def O_CLOEXEC : Nat := 0o2000000

/-- Model of `ColdBoot::WaitForSubProcesses`: reap every forked child; exit status 0
erases the pid from the set; a non-zero exit status or a death by signal is
`LOG(FATAL)` — the daemon aborts, modelled as `none`.  `statuses` are the
children's wait results in reap order (`some s` = exited with status `s`,
`none` = killed by a signal); on success the result is the reap events. -/
def waitForSubProcesses : List (Option Nat) → Option (List CBEvent)
  | [] => some []
  | st :: rest =>
    match st with
    | some s =>
      if s = 0 then (waitForSubProcesses rest).map (fun evs => CBEvent.reapWorker s :: evs)
      else none
    | none => none

/-- Model of `ColdBoot::Run` as the trace of its observable events:
`RegenerateUevents(); ForkSubProcesses(); DoRestoreCon();
WaitForSubProcesses();
close(open(COLDBOOT_DONE, O_WRONLY | O_CREAT | O_CLOEXEC, 0000));`.
`hc` is `std::thread::hardware_concurrency()`, `statuses` the workers' wait
results, and `markerFd` the outcome of the marker `open` (`none` = the open
failed).  The source discards that outcome (`close(open(...))` with no
check), so `markerFd` cannot influence the trace; `none` = the daemon
aborted inside `WaitForSubProcesses`.  After `Run` returns, `ueventd_main`
enters the steady-state `Poll` loop, so a `some` trace is exactly "the
daemon continues into steady state". -/
def coldBootRun (hc : Nat) (statuses : List (Option Nat)) (markerFd : Option Nat) :
    Option (List CBEvent) :=
  match waitForSubProcesses statuses with
  | some reaps => some
      ([CBEvent.regenerateUevents,
        CBEvent.forkSubprocesses (numHandlerSubprocesses hc),
        CBEvent.restoreconSys] ++ reaps ++
       [CBEvent.createColdbootDone (O_WRONLY ||| O_CREAT ||| O_CLOEXEC) 0])
  | none => none

/-!
Helper lemmas.
-/

/-- Or of bit-disjoint summands is addition: `a | (b << k) = a + 2^k * b`
when `a` fits in `k` bits. -/
theorem lor_shiftLeft_eq_add {k : Nat} (a b : Nat) (h : a < 2 ^ k) :
    a ||| (b <<< k) = a + 2 ^ k * b := by
  induction k generalizing a b with
  | zero =>
    have : a = 0 := by omega
    subst this
    simp [Nat.shiftLeft_eq]
  | succ k ih =>
    have hb : b <<< (k + 1) = Nat.bit false (b <<< k) := by
      simp [Nat.bit, Nat.shiftLeft_eq, Nat.pow_succ]
      ring
    have hdiv : a.div2 < 2 ^ k := by
      rw [Nat.div2_val]
      omega
    have hbd := Nat.bodd_add_div2 a
    conv_lhs => rw [← Nat.bit_decomp a, hb, Nat.lor_bit]
    rw [Nat.bit_val, ih a.div2 b hdiv]
    rcases hbo : a.bodd with _ | _ <;> rw [hbo] at hbd <;> simp at hbd ⊢ <;>
      rw [Nat.div2_val] at hbd ⊢ <;> ring_nf <;> omega

theorem get2LE_eq (b0 b1 : Byte) : get2LE b0 b1 = b0.val + 256 * b1.val := by
  have := lor_shiftLeft_eq_add (k := 8) b0.val b1.val (by exact b0.isLt)
  simpa [get2LE] using this

theorem get8LE_eq (b0 b1 b2 b3 b4 b5 b6 b7 : Byte) :
    get8LE b0 b1 b2 b3 b4 b5 b6 b7 =
      b0.val + 256 * b1.val + 256 ^ 2 * b2.val + 256 ^ 3 * b3.val +
      256 ^ 4 * b4.val + 256 ^ 5 * b5.val + 256 ^ 6 * b6.val + 256 ^ 7 * b7.val := by
  have w32 : ∀ c0 c1 c2 c3 : Byte,
      c0.val ||| (c1.val <<< 8) ||| (c2.val <<< 16) ||| (c3.val <<< 24) =
        c0.val + 256 * c1.val + 256 ^ 2 * c2.val + 256 ^ 3 * c3.val := by
    intro c0 c1 c2 c3
    have h1 := lor_shiftLeft_eq_add (k := 8) c0.val c1.val c0.isLt
    rw [h1]
    have h2 := lor_shiftLeft_eq_add (k := 16) (c0.val + 2 ^ 8 * c1.val) c2.val
      (by have := c0.isLt; have := c1.isLt; norm_num; omega)
    rw [h2]
    have h3 := lor_shiftLeft_eq_add (k := 24)
      (c0.val + 2 ^ 8 * c1.val + 2 ^ 16 * c2.val) c3.val
      (by have := c0.isLt; have := c1.isLt; have := c2.isLt; norm_num; omega)
    rw [h3]
    norm_num
  unfold get8LE
  rw [w32 b0 b1 b2 b3, w32 b4 b5 b6 b7]
  have hlow : b0.val + 256 * b1.val + 256 ^ 2 * b2.val + 256 ^ 3 * b3.val < 2 ^ 32 := by
    have := b0.isLt; have := b1.isLt; have := b2.isLt; have := b3.isLt
    norm_num; omega
  rw [Nat.lor_comm, lor_shiftLeft_eq_add _ _ hlow]
  ring

theorem le16_roundtrip (n : Nat) (h : n < 2 ^ 16) :
    get2LE (byteAt n 0) (byteAt n 1) = n := by
  rw [get2LE_eq]
  simp only [byteAt, Fin.val_mk]
  norm_num
  omega

theorem le64_roundtrip (n : Nat) (h : n < 2 ^ 64) :
    get8LE (byteAt n 0) (byteAt n 1) (byteAt n 2) (byteAt n 3)
           (byteAt n 4) (byteAt n 5) (byteAt n 6) (byteAt n 7) = n := by
  rw [get8LE_eq]
  simp only [byteAt, Fin.val_mk]
  norm_num
  omega

theorem strnlenB_append_nul (xs ys : List Byte) (h : ∀ b ∈ xs, b ≠ 0) :
    strnlenB (xs ++ (0 : Byte) :: ys) = xs.length := by
  unfold strnlenB
  induction xs with
  | nil => simp [List.takeWhile]
  | cons x xs ih =>
    have hx : (x != 0) = true := by
      have := h x (by simp)
      simpa using this
    simp only [List.cons_append, List.takeWhile, hx, List.length_cons]
    have := ih (fun b hb => h b (by simp [hb]))
    simp only [List.append_eq] at this ⊢
    omega

theorem scanTable_of_no_match (dir : Bool) (path : List Byte)
    (l : List FsPathConfig) (term : FsPathConfig)
    (h : ∀ pc ∈ l, fs_config_cmp dir pc.pfx path = false) :
    scanTable dir path l term = term := by
  induction l with
  | nil => rfl
  | cons pc rest ih =>
    have hpc := h pc (by simp)
    simp only [scanTable, hpc, Bool.false_eq_true, if_false]
    exact ih fun e he => h e (by simp [he])

/-!
The claims.
-/

/-- C2: for a rule prefix `r` and a normalized path `p`, `fs_config_cmp`
matches exactly as specified: with the directory flag set, iff
`plen ≥ rlen` and the first `rlen` bytes of `p` equal `r`; with the flag
clear and `r` ending in `*`, iff the first `rlen - 1` bytes of `p` equal the
first `rlen - 1` bytes of `r`; otherwise iff `plen = rlen` and `p = r`.
The well-formedness hypothesis `dir = true ∨ r ≠ []` excludes the one point
(`dir` clear, `r` empty) where the C code's wildcard test `prefix[len - 1]`
is an out-of-bounds read (see C9); every built-in rule prefix is non-empty. -/
theorem fs_config_cmp_spec (dir : Bool) (r p : List Byte)
    (hwf : dir = true ∨ r ≠ []) :
    (dir = true →
      (fs_config_cmp dir r p = true ↔ r.length ≤ p.length ∧ p.take r.length = r)) ∧
    (dir = false → r.getLast? = some (42 : Byte) →
      (fs_config_cmp dir r p = true ↔
        p.take (r.length - 1) = r.take (r.length - 1))) ∧
    (dir = false → r.getLast? ≠ some (42 : Byte) →
      (fs_config_cmp dir r p = true ↔ p.length = r.length ∧ p = r)) := by
  refine ⟨?_, ?_, ?_⟩
  · rintro rfl
    simp only [fs_config_cmp, if_true]
    by_cases hlt : p.length < r.length
    · rw [if_pos hlt]
      simp only [Bool.false_eq_true, false_iff]
      rintro ⟨hle, -⟩
      omega
    · rw [if_neg hlt, List.take_length, beq_iff_eq]
      constructor
      · intro h
        exact ⟨Nat.le_of_not_lt hlt, h.symm⟩
      · rintro ⟨-, h⟩
        exact h.symm
  · rintro rfl hstar
    have hs : (r.getLast? == some (42 : Byte)) = true := by simp [hstar]
    simp only [fs_config_cmp, Bool.false_eq_true, if_false, hs, if_true, beq_iff_eq]
    exact eq_comm
  · rintro rfl hstar
    have hs : (r.getLast? == some (42 : Byte)) = false := by simpa using hstar
    simp only [fs_config_cmp, Bool.false_eq_true, if_false, hs]
    by_cases hlen : p.length = r.length
    · rw [if_neg (by omega), List.take_length, beq_iff_eq]
      constructor
      · intro h
        refine ⟨hlen, ?_⟩
        have hp : p.take r.length = p := by
          rw [← hlen]
          exact List.take_length p
        rw [← hp, ← h]
      · rintro ⟨-, rfl⟩
        simp
    · rw [if_pos hlen]
      simp only [Bool.false_eq_true, false_iff]
      rintro ⟨h1, -⟩
      exact hlen h1

/-- Witness for C2 at a concrete wildcard rule and path. -/
theorem fs_config_cmp_spec_witness :
    (false = true →
      (fs_config_cmp false (bytes "init*") (bytes "init.rc") = true ↔
        (bytes "init*").length ≤ (bytes "init.rc").length ∧
        (bytes "init.rc").take (bytes "init*").length = bytes "init*")) ∧
    (false = false → (bytes "init*").getLast? = some (42 : Byte) →
      (fs_config_cmp false (bytes "init*") (bytes "init.rc") = true ↔
        (bytes "init.rc").take ((bytes "init*").length - 1) =
        (bytes "init*").take ((bytes "init*").length - 1))) ∧
    (false = false → (bytes "init*").getLast? ≠ some (42 : Byte) →
      (fs_config_cmp false (bytes "init*") (bytes "init.rc") = true ↔
        (bytes "init.rc").length = (bytes "init*").length ∧
        bytes "init.rc" = bytes "init*")) :=
  fs_config_cmp_spec false (bytes "init*") (bytes "init.rc") (Or.inr (by decide))

theorem readRecord_none_of_corrupt (bs : List Byte)
    (h : firstRecordCorrupt bs = true) : readRecord bs = none := by
  unfold firstRecordCorrupt at h
  unfold readRecord
  simp only [List.getD] at h ⊢
  split_ifs at h ⊢ <;> first | rfl | simp_all

theorem scanFiles_cons (dir : Bool) (path f : List Byte) (files : List (List Byte)) :
    scanFiles dir path (f :: files) =
      match scanFile dir path f with
      | some v => some v
      | none => scanFiles dir path files := rfl

/-- C5: a packed rule file whose first record is corrupt — declared length at
most the header size, a short prefix read, or a prefix that is not
NUL-terminated within its declared length (`firstRecordCorrupt`) —
contributes nothing, whatever bytes follow the corrupt record: its scan
yields no values (so no output is ever assigned from a partially read
record), and `fs_config` on a file sequence starting with it equals
`fs_config` on the remaining files (matching falls through).  Corruption
after initial well-formed records reduces to this case, since `scanFile`
walks records one at a time. -/
theorem corrupt_record_skips_file (dir : Bool) (bs : List Byte)
    (h : firstRecordCorrupt bs = true) :
    (∀ path, scanFile dir path bs = none) ∧
    (∀ path files mode0,
      fs_config path dir (bs :: files) mode0 = fs_config path dir files mode0) := by
  have hnone := readRecord_none_of_corrupt bs h
  have hscan : ∀ path : List Byte, scanFile dir path bs = none := by
    intro path
    rw [scanFile, hnone]
  refine ⟨hscan, ?_⟩
  intro path files mode0
  unfold fs_config
  simp only [scanFiles_cons, hscan]

/-- Witness for C5: a record declaring length 10 (≤ header size 16). -/
theorem corrupt_record_skips_file_witness :
    firstRecordCorrupt [10, 0, 0, 0, 0, 0, 0, 0, 0, 0, 0, 0, 0, 0, 0, 0, 99] = true ∧
    (∀ path, scanFile false path
        [10, 0, 0, 0, 0, 0, 0, 0, 0, 0, 0, 0, 0, 0, 0, 0, 99] = none) ∧
    (∀ path files mode0,
      fs_config path false
          ([10, 0, 0, 0, 0, 0, 0, 0, 0, 0, 0, 0, 0, 0, 0, 0, 99] :: files) mode0 =
        fs_config path false files mode0) :=
  ⟨by decide,
   (corrupt_record_skips_file false _ (by decide)).1,
   (corrupt_record_skips_file false _ (by decide)).2⟩

/-- C1: the matcher is total — `fs_config` is a total function assigning a
`(uid, gid, mode, capabilities)` quadruple to every path and directory flag
— and whenever no packed-file record matches (`scanFiles` yields nothing)
and no non-terminal built-in entry matches, the terminal NULL-prefix entry
supplies the result: mode 0755, uid 0 (`AID_ROOT`), gid 0, capabilities 0
for directories; mode 0644, uid 0, gid 0, capabilities 0 for files (the
caller's mode bits above the low 12 are preserved by `mergeMode`, exactly
as `fs_config` always does). -/
theorem fs_config_total_catchall (path : List Byte) (dir : Bool)
    (files : List (List Byte)) (mode0 : Nat)
    (hfiles : scanFiles dir (stripLeadingSlash path) files = none)
    (htable : ∀ pc ∈ (if dir then android_dirs else android_files),
      fs_config_cmp dir pc.pfx (stripLeadingSlash path) = false) :
    fs_config path dir files mode0 =
      ⟨AID_ROOT, AID_ROOT, mergeMode mode0 (if dir then 0o755 else 0o644), 0⟩ := by
  unfold fs_config
  simp only [hfiles]
  rw [scanTable_of_no_match dir (stripLeadingSlash path) _ _ (by
    intro pc hpc
    exact htable pc (by
      cases dir <;> simpa using hpc))]
  cases dir <;> rfl

/-- Witness for C1: the path `/zzz` matches nothing, so the file-table
terminal entry decides. -/
theorem fs_config_total_catchall_witness :
    scanFiles false (stripLeadingSlash (bytes "/zzz")) [] = none ∧
    (∀ pc ∈ (if false then android_dirs else android_files),
      fs_config_cmp false pc.pfx (stripLeadingSlash (bytes "/zzz")) = false) ∧
    fs_config (bytes "/zzz") false [] 0o100000 =
      ⟨AID_ROOT, AID_ROOT, mergeMode 0o100000 (if false then 0o755 else 0o644), 0⟩ :=
  ⟨by decide, by decide,
   fs_config_total_catchall (bytes "/zzz") false [] 0o100000 (by decide) (by decide)⟩

theorem mem_handlerLoop (total size : Nat) (htotal : 0 < total) (start j : Nat) :
    j ∈ handlerLoop total size htotal start ↔
      j < size ∧ ∃ t, j = start + total * t := by
  have key : ∀ fuel start, size - start ≤ fuel →
      (j ∈ handlerLoop total size htotal start ↔
        j < size ∧ ∃ t, j = start + total * t) := by
    intro fuel
    induction fuel with
    | zero =>
      intro start hle
      rw [handlerLoop]
      have hns : ¬ start < size := by omega
      rw [dif_neg hns]
      simp only [List.not_mem_nil, false_iff, not_and]
      rintro hj ⟨t, rfl⟩
      omega
    | succ fuel ih =>
      intro start hle
      rw [handlerLoop]
      by_cases hs : start < size
      · rw [dif_pos hs]
        rw [List.mem_cons, ih (start + total) (by omega)]
        constructor
        · rintro (rfl | ⟨hj, t, rfl⟩)
          · exact ⟨hs, 0, by omega⟩
          · exact ⟨hj, t + 1, by ring⟩
        · rintro ⟨hj, t, rfl⟩
          rcases t with _ | t
          · left
            omega
          · right
            exact ⟨hj, t, by ring⟩
      · rw [dif_neg hs]
        simp only [List.not_mem_nil, false_iff, not_and]
        rintro hj ⟨t, rfl⟩
        omega
  exact key (size - start) start (le_refl _)

/-- C6: the cold-boot partition is exact.  For any worker count `total ≥ 1`
and any queue size, every queue index `i < size` is handled by exactly one
worker: there is a unique `w < total` whose `UeventHandlerMain` loop
(`handlerLoop` starting at `w` with stride `total`) visits `i`.  Hence the
workers' index sets cover `{0, …, size-1}` and are pairwise disjoint. -/
theorem coldboot_partition (total size i : Nat) (htotal : 0 < total)
    (hi : i < size) :
    ∃! w, w < total ∧ i ∈ handlerLoop total size htotal w := by
  refine ⟨i % total, ⟨Nat.mod_lt _ htotal, ?_⟩, ?_⟩
  · rw [mem_handlerLoop]
    exact ⟨hi, i / total, by
      have := Nat.mod_add_div i total
      omega⟩
  · rintro w ⟨hw, hmem⟩
    rw [mem_handlerLoop] at hmem
    obtain ⟨-, t, rfl⟩ := hmem
    rw [Nat.add_mul_mod_self_left, Nat.mod_eq_of_lt hw]

/-- Witness for C6: ten queue entries, four workers, index 7. -/
theorem coldboot_partition_witness :
    ∃! w, w < 4 ∧ 7 ∈ handlerLoop 4 10 (by norm_num) w :=
  coldboot_partition 4 10 7 (by norm_num) (by norm_num)

/-- C7 counterexample: with `hardware_concurrency = 1` the coordinator forks
exactly one child, not `max(1, 4) = 4` as the claim states. -/
theorem fork_count_claim_cex :
    (forkSubProcesses 1).length = 1 ∧ max 1 4 = 4 ∧
    (forkSubProcesses 1).length ≠ max 1 4 := by decide

/-- C7 amended: the number of forked workers equals
`num_handler_subprocesses_`, which is `hardware_concurrency` whenever that
is nonzero and 4 only when it is 0 (unknown); in particular at least one
child is always forked, but for `hardware_concurrency ∈ {1, 2, 3}` fewer
than 4 are. -/
theorem fork_count_amended (hc : Nat) :
    (forkSubProcesses hc).length = numHandlerSubprocesses hc ∧
    numHandlerSubprocesses hc = (if hc = 0 then 4 else hc) ∧
    1 ≤ (forkSubProcesses hc).length := by
  unfold forkSubProcesses numHandlerSubprocesses
  by_cases h0 : hc = 0
  · subst h0
    simp
  · simp only [List.length_range, ne_eq, h0, not_false_eq_true, if_true, if_false]
    refine ⟨trivial, trivial, by omega⟩

theorem waitForSubProcesses_all_zero (sts : List (Option Nat))
    (h : ∀ st ∈ sts, st = some 0) :
    waitForSubProcesses sts = some (sts.map fun _ => CBEvent.reapWorker 0) := by
  induction sts with
  | nil => rfl
  | cons st rest ih =>
    have hst : st = some 0 := h st (by simp)
    subst hst
    simp only [waitForSubProcesses, if_pos rfl]
    rw [ih fun e he => h e (by simp [he])]
    rfl

theorem waitForSubProcesses_some (sts : List (Option Nat)) (evs : List CBEvent)
    (h : waitForSubProcesses sts = some evs) :
    (∀ st ∈ sts, st = some 0) ∧ evs = sts.map fun _ => CBEvent.reapWorker 0 := by
  induction sts generalizing evs with
  | nil =>
    simp only [waitForSubProcesses, Option.some_inj] at h
    subst h
    simp
  | cons st rest ih =>
    rcases st with _ | ⟨_ | s⟩
    · simp [waitForSubProcesses] at h
    · rw [show waitForSubProcesses (some 0 :: rest) =
          (waitForSubProcesses rest).map (fun evs => CBEvent.reapWorker 0 :: evs) from rfl] at h
      cases hrec : waitForSubProcesses rest with
      | none =>
        rw [hrec] at h
        simp at h
      | some evs' =>
        rw [hrec] at h
        simp only [Option.map_some', Option.some_inj] at h
        subst h
        obtain ⟨hall, rfl⟩ := ih evs' hrec
        refine ⟨?_, by simp⟩
        intro e he
        rcases List.mem_cons.mp he with rfl | hmem
        · rfl
        · exact hall e hmem
    · rw [show waitForSubProcesses (some (s + 1) :: rest) = none from rfl] at h
      cases h

/-- C8 counterexample: with four cleanly exited workers and a *failed*
marker `open` (`markerFd = none`), `ColdBoot::Run` still completes and the
daemon proceeds to the steady-state loop — the claimed abort does not
happen, because the source discards the `open` result (`close(open(...))`). -/
theorem marker_failure_fatal_cex :
    (coldBootRun 4 [some 0, some 0, some 0, some 0] none).isSome = true := by
  decide

/-- C8 amended: failure to create the completion marker is *ignored*: the
outcome of the marker `open` has no effect whatsoever on `ColdBoot::Run`
(first conjunct), and whenever every worker exited with status 0 the run
completes and the daemon continues into the steady-state loop even when the
marker `open` failed (second conjunct). -/
theorem marker_failure_ignored (hc : Nat) (sts : List (Option Nat))
    (fd fd' : Option Nat) :
    coldBootRun hc sts fd = coldBootRun hc sts fd' ∧
    ((∀ st ∈ sts, st = some 0) → (coldBootRun hc sts fd).isSome = true) := by
  refine ⟨rfl, ?_⟩
  intro h
  unfold coldBootRun
  rw [waitForSubProcesses_all_zero sts h]
  rfl

/-- Witness for C8's amended statement. -/
theorem marker_failure_ignored_witness :
    coldBootRun 2 [some 0] none = coldBootRun 2 [some 0] (some 5) ∧
    ((∀ st ∈ [some 0], st = some 0) →
      (coldBootRun 2 [some 0] none).isSome = true) :=
  marker_failure_ignored 2 [some 0] none (some 5)

/-- C3: in every completed execution of `ColdBoot::Run`, the completion
marker is created exactly once, by `open` with
`O_WRONLY | O_CREAT | O_CLOEXEC`, and only after (a) every reaped worker
exited with status 0 (a completed run forces all statuses to be `some 0`)
and (b) the recursive restorecon of `/sys` returned: the marker event is
the last event of the trace, occurs exactly once, and the restorecon event
and every reap event lie strictly before it (in `tr.dropLast`). -/
theorem coldboot_marker_once_after (hc : Nat) (sts : List (Option Nat))
    (mfd : Option Nat) (tr : List CBEvent)
    (h : coldBootRun hc sts mfd = some tr) :
    (∀ st ∈ sts, st = some 0) ∧
    tr.countP isMarkerEvent = 1 ∧
    tr.getLast? =
      some (CBEvent.createColdbootDone (O_WRONLY ||| O_CREAT ||| O_CLOEXEC) 0) ∧
    CBEvent.restoreconSys ∈ tr.dropLast ∧
    (∀ e ∈ tr, isReapEvent e = true → e ∈ tr.dropLast) := by
  unfold coldBootRun at h
  cases hw : waitForSubProcesses sts with
  | none =>
    rw [hw] at h
    cases h
  | some reaps =>
    rw [hw] at h
    simp only [Option.some_inj] at h
    obtain ⟨hall, hreaps⟩ := waitForSubProcesses_some sts reaps hw
    subst hreaps
    subst h
    refine ⟨hall, ?_, ?_, ?_, ?_⟩
    · have h0 : (([CBEvent.regenerateUevents,
          CBEvent.forkSubprocesses (numHandlerSubprocesses hc),
          CBEvent.restoreconSys] ++ sts.map fun _ => CBEvent.reapWorker 0).countP
            isMarkerEvent) = 0 := by
        rw [List.countP_eq_zero]
        intro e he
        rcases List.mem_append.mp he with hm | hm
        · simp only [List.mem_cons, List.not_mem_nil, or_false] at hm
          rcases hm with rfl | rfl | rfl <;> simp [isMarkerEvent]
        · obtain ⟨-, -, rfl⟩ := List.mem_map.mp hm
          simp [isMarkerEvent]
      rw [List.countP_append, h0]
      rfl
    · rw [List.getLast?_concat]
    · rw [List.dropLast_concat]
      simp
    · intro e he hre
      rw [List.dropLast_concat]
      rcases List.mem_append.mp he with hm | hm
      · exact hm
      · simp only [List.mem_singleton] at hm
        subst hm
        simp [isReapEvent] at hre

/-- Witness for C3: two workers, both exiting 0, marker open succeeding. -/
theorem coldboot_marker_once_after_witness :
    (∀ st ∈ [some 0, some 0], st = some 0) ∧
    ([CBEvent.regenerateUevents, CBEvent.forkSubprocesses (numHandlerSubprocesses 2),
      CBEvent.restoreconSys, CBEvent.reapWorker 0, CBEvent.reapWorker 0,
      CBEvent.createColdbootDone (O_WRONLY ||| O_CREAT ||| O_CLOEXEC) 0].countP
        isMarkerEvent = 1) ∧
    ([CBEvent.regenerateUevents, CBEvent.forkSubprocesses (numHandlerSubprocesses 2),
      CBEvent.restoreconSys, CBEvent.reapWorker 0, CBEvent.reapWorker 0,
      CBEvent.createColdbootDone (O_WRONLY ||| O_CREAT ||| O_CLOEXEC) 0].getLast? =
      some (CBEvent.createColdbootDone (O_WRONLY ||| O_CREAT ||| O_CLOEXEC) 0)) ∧
    CBEvent.restoreconSys ∈
      [CBEvent.regenerateUevents, CBEvent.forkSubprocesses (numHandlerSubprocesses 2),
       CBEvent.restoreconSys, CBEvent.reapWorker 0, CBEvent.reapWorker 0,
       CBEvent.createColdbootDone (O_WRONLY ||| O_CREAT ||| O_CLOEXEC) 0].dropLast ∧
    (∀ e ∈ [CBEvent.regenerateUevents, CBEvent.forkSubprocesses (numHandlerSubprocesses 2),
       CBEvent.restoreconSys, CBEvent.reapWorker 0, CBEvent.reapWorker 0,
       CBEvent.createColdbootDone (O_WRONLY ||| O_CREAT ||| O_CLOEXEC) 0],
      isReapEvent e = true →
      e ∈ [CBEvent.regenerateUevents, CBEvent.forkSubprocesses (numHandlerSubprocesses 2),
       CBEvent.restoreconSys, CBEvent.reapWorker 0, CBEvent.reapWorker 0,
       CBEvent.createColdbootDone (O_WRONLY ||| O_CREAT ||| O_CLOEXEC) 0].dropLast) :=
  coldboot_marker_once_after 2 [some 0, some 0] (some 7) _ rfl

set_option maxRecDepth 40000 in
/-- C9 (code bug): the claim that every `fs_config_cmp` call reachable with
the directory flag clear has `len ≥ 1` holds for the built-in tables (every
listed prefix is non-empty, and the terminal NULL-prefix entry stops the
loop before any comparison), but *fails* for packed-file records: the
17-byte record below — declared length 17, prefix bytes `[0]` — passes all
three validation checks with `len = strnlen(prefix, 1) = 0` and is handed
to `fs_config_cmp`, whose wildcard test then reads `prefix[len - 1]` =
`prefix[SIZE_MAX]`, out of bounds.  The third conjunct runs the scan: the
record reaches the comparison (under this model's totalization of the
out-of-bounds read) and is even matched against the empty path. -/
theorem empty_prefix_record_reaches_cmp :
    (∀ pc ∈ android_dirs ++ android_files, 1 ≤ pc.pfx.length) ∧
    readRecord [17, 0, 109, 0, 42, 0, 43, 0, 0, 0, 0, 0, 0, 0, 0, 0, 0] =
      some (⟨42, 43, 109, 0, []⟩, []) ∧
    scanFile false [] [17, 0, 109, 0, 42, 0, 43, 0, 0, 0, 0, 0, 0, 0, 0, 0, 0] =
      some ⟨42, 43, 109, 0, []⟩ := by
  refine ⟨by decide, by decide, ?_⟩
  rw [scanFile, show readRecord [17, 0, 109, 0, 42, 0, 43, 0, 0, 0, 0, 0, 0, 0, 0, 0, 0] =
    some (⟨42, 43, 109, 0, []⟩, []) from by decide]
  decide

theorem align8_ge (x : Nat) : x ≤ align8 x := by
  unfold align8
  omega

theorem align8_mono_le {x y : Nat} (h : x ≤ y) : align8 x ≤ align8 y := by
  unfold align8
  omega

theorem fs_config_generate_none (pc : FsPathConfig) (buflen : Nat)
    (h : 65535 < align8 (headerSize + pc.pfx.length + 1)) :
    fs_config_generate buflen pc = none := by
  unfold fs_config_generate
  dsimp only
  rw [if_pos (Or.inr h)]

/-- C4 counterexample: the claim quantifies over *every* rule `r` with
`len(r.prefix) + header ≤ UINT16_MAX`, but the record fields are stored as
16-bit (uid, gid, mode) and 64-bit (capabilities) little-endian values, so a
rule whose uid is `65536 = 2^16` — a legal `unsigned` value of
`struct fs_path_config` and well within the claim's only hypothesis —
encodes successfully and decodes with uid `0`: `Decode(Encode(r)) ≠ r`.
(The length bound itself is also wrong at the margin: the encoder rejects
any rule with `ALIGN(header + len + 1, 8) > UINT16_MAX`, i.e. prefix
lengths 65512–65519, which the claim's bound still admits;
`fs_config_generate_none` proves the rejection.) -/
theorem roundtrip_claim_cex :
    (bytes "x").length + headerSize ≤ 65535 ∧
    (fs_config_generate 100 ⟨0o644, 65536, 0, 0, bytes "x"⟩).isSome = true ∧
    (fs_config_generate 100 ⟨0o644, 65536, 0, 0, bytes "x"⟩).bind readRecord ≠
      some (⟨65536, 0, 0o644, 0, bytes "x"⟩, []) ∧
    (fs_config_generate 100 ⟨0o644, 65536, 0, 0, bytes "x"⟩).bind readRecord =
      some (⟨0, 0, 0o644, 0, bytes "x"⟩, []) := by
  decide

theorem readRecord_wellformed (L : Nat)
    (m0 m1 u0 u1 g0 g1 c0 c1 c2 c3 c4 c5 c6 c7 : Byte)
    (pfx : List Byte) (k : Nat)
    (hL16 : headerSize < L) (hLmax : L ≤ 65535) (hk : 1 ≤ k)
    (hsum : headerSize + pfx.length + k = L)
    (hnul : ∀ b ∈ pfx, b ≠ 0) :
    readRecord ([byteAt L 0, byteAt L 1, m0, m1, u0, u1, g0, g1,
        c0, c1, c2, c3, c4, c5, c6, c7] ++ pfx ++ List.replicate k 0) =
      some (⟨get2LE u0 u1, get2LE g0 g1, get2LE m0 m1,
             get8LE c0 c1 c2 c3 c4 c5 c6 c7, pfx⟩, []) := by
  have hhs : headerSize = 16 := rfl
  set enc := [byteAt L 0, byteAt L 1, m0, m1, u0, u1, g0, g1,
      c0, c1, c2, c3, c4, c5, c6, c7] ++ pfx ++ List.replicate k 0 with hEnc
  have e0 : enc.getD 0 0 = byteAt L 0 := rfl
  have e1 : enc.getD 1 0 = byteAt L 1 := rfl
  have e2 : enc.getD 2 0 = m0 := rfl
  have e3 : enc.getD 3 0 = m1 := rfl
  have e4 : enc.getD 4 0 = u0 := rfl
  have e5 : enc.getD 5 0 = u1 := rfl
  have e6 : enc.getD 6 0 = g0 := rfl
  have e7 : enc.getD 7 0 = g1 := rfl
  have e8 : enc.getD 8 0 = c0 := rfl
  have e9 : enc.getD 9 0 = c1 := rfl
  have e10 : enc.getD 10 0 = c2 := rfl
  have e11 : enc.getD 11 0 = c3 := rfl
  have e12 : enc.getD 12 0 = c4 := rfl
  have e13 : enc.getD 13 0 = c5 := rfl
  have e14 : enc.getD 14 0 = c6 := rfl
  have e15 : enc.getD 15 0 = c7 := rfl
  have hdrop : enc.drop headerSize = pfx ++ List.replicate k 0 := rfl
  have hlenenc : enc.length = L := by
    rw [hEnc]
    simp only [List.length_append, List.length_cons, List.length_nil,
      List.length_replicate]
    omega
  have hpl : (pfx ++ List.replicate k (0 : Byte)).length = pfx.length + k := by
    simp
  have hhost : get2LE (enc.getD 0 0) (enc.getD 1 0) = L := by
    rw [e0, e1]
    exact le16_roundtrip L (by omega)
  unfold readRecord
  dsimp only
  rw [hhost, hlenenc, hdrop, hpl]
  rw [if_neg (by omega), if_neg (by omega), if_neg (by omega)]
  rw [List.take_of_length_le (by omega)]
  have hrep : List.replicate k (0 : Byte) = 0 :: List.replicate (k - 1) 0 := by
    cases k with
    | zero => omega
    | succ k' =>
      rw [List.replicate_succ]
      norm_num
  rw [hrep, strnlenB_append_nul pfx _ hnul]
  rw [if_neg (by omega)]
  rw [e2, e3, e4, e5, e6, e7, e8, e9, e10, e11, e12, e13, e14, e15]
  rw [List.take_left, List.drop_eq_nil_of_le (by
    rw [List.length_append, List.length_cons, List.length_replicate]
    omega)]

/-- C4 amended: for every rule `r` whose mode, uid and gid fit in 16 bits,
whose capabilities fit in 64 bits, whose prefix contains no NUL byte, and
whose *aligned* encoded size `ALIGN(header + len(prefix) + 1, 8)` is at most
`UINT16_MAX`, encoding into a sufficiently large buffer succeeds and the
matcher's record reader decodes the record back to exactly
`(mode, uid, gid, capabilities, prefix)`, consuming the whole record:
`Decode(Encode(r)) = r`. -/
theorem fs_config_encode_decode_roundtrip (pc : FsPathConfig) (buflen : Nat)
    (hmode : pc.mode < 2 ^ 16) (huid : pc.uid < 2 ^ 16) (hgid : pc.gid < 2 ^ 16)
    (hcaps : pc.capabilities < 2 ^ 64)
    (hnul : ∀ b ∈ pc.pfx, b ≠ 0)
    (hfit : align8 (headerSize + pc.pfx.length + 1) ≤ 65535)
    (hbuf : align8 (headerSize + pc.pfx.length + 1) ≤ buflen) :
    ∃ enc, fs_config_generate buflen pc = some enc ∧
      readRecord enc =
        some (⟨pc.uid, pc.gid, pc.mode, pc.capabilities, pc.pfx⟩, []) := by
  have hge : headerSize + pc.pfx.length + 1 ≤ align8 (headerSize + pc.pfx.length + 1) :=
    align8_ge _
  have hhs : headerSize = 16 := rfl
  have henc : fs_config_generate buflen pc = some
      ([byteAt (align8 (headerSize + pc.pfx.length + 1)) 0,
        byteAt (align8 (headerSize + pc.pfx.length + 1)) 1,
        byteAt pc.mode 0, byteAt pc.mode 1,
        byteAt pc.uid 0, byteAt pc.uid 1,
        byteAt pc.gid 0, byteAt pc.gid 1,
        byteAt pc.capabilities 0, byteAt pc.capabilities 1, byteAt pc.capabilities 2,
        byteAt pc.capabilities 3, byteAt pc.capabilities 4, byteAt pc.capabilities 5,
        byteAt pc.capabilities 6, byteAt pc.capabilities 7] ++
       pc.pfx ++ List.replicate
         (align8 (headerSize + pc.pfx.length + 1) - headerSize - pc.pfx.length) 0) := by
    unfold fs_config_generate
    dsimp only
    rw [if_neg (by omega)]
  refine ⟨_, henc, ?_⟩
  · have hwf := readRecord_wellformed (align8 (headerSize + pc.pfx.length + 1))
      (byteAt pc.mode 0) (byteAt pc.mode 1) (byteAt pc.uid 0) (byteAt pc.uid 1)
      (byteAt pc.gid 0) (byteAt pc.gid 1)
      (byteAt pc.capabilities 0) (byteAt pc.capabilities 1) (byteAt pc.capabilities 2)
      (byteAt pc.capabilities 3) (byteAt pc.capabilities 4) (byteAt pc.capabilities 5)
      (byteAt pc.capabilities 6) (byteAt pc.capabilities 7)
      pc.pfx (align8 (headerSize + pc.pfx.length + 1) - headerSize - pc.pfx.length)
      (by omega) hfit (by omega) (by omega) hnul
    rw [hwf]
    rw [le16_roundtrip pc.uid huid, le16_roundtrip pc.gid hgid,
        le16_roundtrip pc.mode hmode, le64_roundtrip pc.capabilities hcaps]

set_option maxRecDepth 40000 in
/-- Witness for C4's amended round trip at a concrete wildcard rule. -/
theorem fs_config_encode_decode_roundtrip_witness :
    ∃ enc, fs_config_generate 64 ⟨0o755, 0, 2000, 0, bytes "system/bin/*"⟩ = some enc ∧
      readRecord enc =
        some (⟨0, 2000, 0o755, 0, bytes "system/bin/*"⟩, []) :=
  fs_config_encode_decode_roundtrip ⟨0o755, 0, 2000, 0, bytes "system/bin/*"⟩ 64
    (by norm_num) (by norm_num) (by norm_num) (by norm_num) (by decide)
    (by decide) (by decide)

set_option maxRecDepth 40000 in
/-- C10 counterexample: for `target_out_path = "out/system/"` the claim's
transformation (strip trailing slashes, then drop a trailing "/system")
gives the prefix `"out"`, but `fs_config_open` computes `"out/system"`: its
`strcmp(target_out_path + len - 7, "/system")` runs to the NUL of the
*original* string, so after a trailing slash has been stripped the suffix
test can never succeed and "/system" is not removed. -/
theorem fs_config_open_pfx_claim_cex :
    fs_config_open_pfx (bytes "out/system/") = bytes "out/system" ∧
    fs_config_open_pfx_claim (bytes "out/system/") = bytes "out" ∧
    fs_config_open_pfx (bytes "out/system/") ≠
      fs_config_open_pfx_claim (bytes "out/system/") := by
  decide

theorem stripTrailingSlashes_split (top : List Byte) :
    top = stripTrailingSlashes top ++
      (top.reverse.takeWhile (fun b => b == (47 : Byte))).reverse := by
  unfold stripTrailingSlashes
  rw [← List.reverse_append, List.takeWhile_append_dropWhile, List.reverse_reverse]

/-- C10 amended: with a non-empty `target_out_path`, the matcher opens the
prefixed rule-file path first and falls back to the absolute path whenever
that open fails (conjuncts one and two); and the prepended prefix is
`target_out_path` with trailing `/` bytes removed, with a trailing
`"/system"` additionally removed exactly when the *original*
`target_out_path` ends in `"/system"` — i.e. only when there were no
trailing slashes to strip. -/
theorem fs_config_open_pfx_amended (openf : List Byte → Option Nat) (dir : Bool)
    (which : Nat) (top : List Byte) (htop : ¬top = []) :
    (∀ fd, openf (fs_config_open_pfx top ++ confPath which dir) = some fd →
      fs_config_open openf dir which top = some fd) ∧
    (openf (fs_config_open_pfx top ++ confPath which dir) = none →
      fs_config_open openf dir which top = openf (confPath which dir)) ∧
    fs_config_open_pfx top =
      (if (bytes "/system").isSuffixOf top then top.take (top.length - 7)
       else stripTrailingSlashes top) := by
  refine ⟨?_, ?_, ?_⟩
  · intro fd h
    unfold fs_config_open
    rw [if_neg htop, h]
  · intro h
    unfold fs_config_open
    rw [if_neg htop, h]
  · have hsplit := stripTrailingSlashes_split top
    have hlen := congrArg List.length hsplit
    rw [List.length_append] at hlen
    by_cases hsuf : (bytes "/system").isSuffixOf top = true
    · rw [if_pos hsuf]
      obtain ⟨u, hu⟩ := List.isSuffixOf_iff_suffix.mp hsuf
      have hrev : top.reverse =
          109 :: ((bytes "metsys/").tail ++ u.reverse) := by
        rw [← hu, List.reverse_append]
        rfl
      have hdw : top.reverse.dropWhile (fun b => b == (47 : Byte)) = top.reverse := by
        rw [hrev]
        exact List.dropWhile_cons_of_neg (by decide)
      have hstrip : stripTrailingSlashes top = top := by
        unfold stripTrailingSlashes
        rw [hdw, List.reverse_reverse]
      have hulen : top.length = u.length + 7 := by
        rw [← hu, List.length_append]
        rfl
      have h7 : 7 ≤ top.length := by omega
      have hdropeq : top.drop (top.length - 7) = bytes "/system" := by
        have harg : top.length - 7 = u.length := by omega
        rw [harg, ← hu]
        exact List.drop_left u (bytes "/system")
      unfold fs_config_open_pfx
      dsimp only
      rw [hstrip, if_pos ⟨h7, hdropeq⟩]
    · rw [if_neg hsuf]
      unfold fs_config_open_pfx
      dsimp only
      rw [if_neg ?hcond]
      case hcond =>
        rintro ⟨h7, hdrop⟩
        have hdlen := congrArg List.length hdrop
        rw [List.length_drop] at hdlen
        have hbl : (bytes "/system").length = 7 := rfl
        have htl : top.length = (stripTrailingSlashes top).length := by omega
        refine hsuf (List.isSuffixOf_iff_suffix.mpr ⟨top.take (top.length - 7), ?_⟩)
        have hdrop2 : top.drop (top.length - 7) = bytes "/system" := by
          rw [htl]
          exact hdrop
        conv_rhs => rw [← List.take_append_drop (top.length - 7) top]
        rw [hdrop2]
      · nth_rewrite 2 [hsplit]
        exact List.take_left _ _

/-- Witness for C10's amended statement, with an open oracle that fails. -/
theorem fs_config_open_pfx_amended_witness :
    (∀ fd, (fun _ => (none : Option Nat))
        (fs_config_open_pfx (bytes "out") ++ confPath 0 false) = some fd →
      fs_config_open (fun _ => none) false 0 (bytes "out") = some fd) ∧
    ((fun _ => (none : Option Nat))
        (fs_config_open_pfx (bytes "out") ++ confPath 0 false) = none →
      fs_config_open (fun _ => none) false 0 (bytes "out") =
        (fun _ => (none : Option Nat)) (confPath 0 false)) ∧
    fs_config_open_pfx (bytes "out") =
      (if (bytes "/system").isSuffixOf (bytes "out") then
        (bytes "out").take ((bytes "out").length - 7)
       else stripTrailingSlashes (bytes "out")) :=
  fs_config_open_pfx_amended (fun _ => none) false 0 (bytes "out") (by decide)
